import Mathlib

/-
Verification of the key-value synchronization engine of `expo-use-storage-state`.

The development shallowly embeds the TypeScript sources:
  * `Publisher.ts` (bundled with the repository docs): the in-process Change
    Broker, a `Map<string, Subscriber[]>` modelled as an insertion-ordered
    association list with unique keys;
  * `src/useKeyValueStorage.ts`: the synchronization engine — per-attachment
    state, `prevRef`, the `opRef` operation counter, the promise-chain task
    queue (`queueRef.current = queueRef.current.then(task, task)`), the broker
    listener, the initial load, and `setValue`;
  * `src/useStorageState.ts`: the legacy hook, embedded for its initial-load
    path, whose corrupt-entry cleanup reports faults through `handleError`
    instead of discarding them.

JavaScript is single threaded and cooperative; every state transition of the
engine happens inside one synchronous segment between `await` points, so each
handler is embedded as a pure function on the attachment state.  `JSON.parse`
and `JSON.stringify` are external builtins and are passed in as parameters
(`parse : String → Option α`, `strf : α → Option String`, with `none`
modelling a thrown exception).  Backend calls are external I/O: their
outcomes are supplied by a boolean oracle and the calls themselves are
recorded as events, together with broker publishes and error reports (a
report event stands for the `reportError` call, which feeds both the logger
and the `onError` sink).
-/

set_option linter.unusedSectionVars false

namespace ExpoStorage

/-- The `operation` discriminant carried by `StorageError`
(`src/useKeyValueStorage.ts`, `type Operation`). -/
inductive Op
  | read
  | write
  | delete
  | parse
  | stringify
deriving DecidableEq

/-- Shallow embedding of the `StorageError` class hierarchy as a record:
dispatch happens on the `operation` field; `cause` is dropped (an arbitrary
JS value used only for logging). -/
structure StorageError where
  message : String
  key : Option String
  operation : Option Op
deriving DecidableEq

/-- A fault raised inside the engine: either an already-typed `StorageError`
or an untyped JS error/value carrying only a message. -/
inductive Fault
  | storage (e : StorageError)
  | other (message : String)
deriving DecidableEq

/-- Embedding of `toStorageError` (`src/useKeyValueStorage.ts`): typed faults
pass through unchanged, anything else is wrapped into a generic
`StorageError` tagged with the key. -/
def toStorageError (f : Fault) (key : String) : StorageError :=
  match f with
  | .storage e => e
  | .other msg => ⟨msg, some key, none⟩

/-- Error produced by `withStorageErrorHandling` when `getItem` fails. -/
def readError (k : String) : StorageError :=
  ⟨s!"Failed to read {k}", some k, some .read⟩

/-- Error produced by `withStorageErrorHandling` when `setItem` fails. -/
def writeError (k : String) : StorageError :=
  ⟨s!"Failed to write {k}", some k, some .write⟩

/-- Error produced by `withStorageErrorHandling` when `removeItem` fails. -/
def deleteError (k : String) : StorageError :=
  ⟨s!"Failed to delete {k}", some k, some .delete⟩

/-- The `StorageParseError` built at the `JSON.parse` catch sites. -/
def parseError (k : String) : StorageError :=
  ⟨"Invalid JSON", some k, some .parse⟩

/-- The `StorageStringifyError` built at the `JSON.stringify` catch site. -/
def stringifyErr (k : String) : StorageError :=
  ⟨"Could not stringify", some k, some .stringify⟩

/-! ## The Change Broker (`Publisher`) -/

section BrokerDefs

variable {L : Type} [DecidableEq L]

/-- The broker registry `Map<string, Subscriber[]>`, modelled as an
insertion-ordered association list; listeners are compared by identity
(`fn !== listener`), so the listener type `L` only needs decidable equality. -/
structure Publisher (L : Type) where
  subscribers : List (String × List L)
deriving DecidableEq

/-- Lookup in the registry: `this.subscribers.get(event) || []`. -/
def getL : List (String × List L) → String → List L
  | [], _ => []
  | kv :: rest, k => if kv.1 = k then kv.2 else getL rest k

/-- Does the map hold an entry for the key (`Map.has`)? -/
def hasKey : List (String × List L) → String → Bool
  | [], _ => false
  | kv :: rest, k => if kv.1 = k then true else hasKey rest k

/-- `Map.set`: replace the entry in place if the key is present, otherwise
append a fresh entry at the end (JS maps keep insertion order). -/
def setEntry : List (String × List L) → String → List L → List (String × List L)
  | [], k, v => [(k, v)]
  | kv :: rest, k, v => if kv.1 = k then (k, v) :: rest else kv :: setEntry rest k v

/-- `Map.delete`: remove the entry of the key (keys are unique in a JS map,
so removing every match is the same operation on reachable registries). -/
def deleteEntry : List (String × List L) → String → List (String × List L)
  | [], _ => []
  | kv :: rest, k => if kv.1 = k then deleteEntry rest k else kv :: deleteEntry rest k

/-- Embedding of `Publisher.subscribe`: append the listener to the current
list of the key (registering one more occurrence, even if already present). -/
def subscribe (p : Publisher L) (event : String) (listener : L) : Publisher L :=
  let listeners := getL p.subscribers event
  ⟨setEntry p.subscribers event (listeners ++ [listener])⟩

/-- Embedding of `Publisher.unsubscribe`: filter the listener out of the
list held for the key; if the result is empty delete the entry, else store
the filtered list. -/
def unsubscribe (p : Publisher L) (event : String) (listener : L) : Publisher L :=
  let listeners := getL p.subscribers event
  let newListeners := listeners.filter (fun fn => decide (fn ≠ listener))
  if newListeners.length = 0 then ⟨deleteEntry p.subscribers event⟩
  else ⟨setEntry p.subscribers event newListeners⟩

/-- Embedding of `Publisher.notifySubscribers`: the registry is untouched and
every currently registered listener for the event is invoked synchronously in
registration order; the returned list is the invocation order. -/
def publish (p : Publisher L) (event : String) : Publisher L × List L :=
  (p, getL p.subscribers event)

/-- Registry well-formedness from the spec: no key is mapped to an empty
listener list. -/
@[reducible] def NoEmptyInv (p : Publisher L) : Prop :=
  ∀ kv ∈ p.subscribers, kv.2 ≠ ([] : List L)

end BrokerDefs

/-! ## The synchronization engine (`useKeyValueStorage`) -/

section EngineDefs

variable {α : Type}

/-- The `StorageState<T>` record held by one attachment. -/
structure StorageState (α : Type) where
  isLoading : Bool
  error : Option StorageError
  value : Option α
deriving DecidableEq

/-- The data captured by one queued `setValue` task: the requested value, the
`prev` snapshot taken at call time and the `myOp` operation id. -/
structure MutTask (α : Type) where
  value : Option α
  prev : Option α
  myOp : Nat
deriving DecidableEq

/-- One attachment of the engine: the hook state, `prevRef.current`,
`opRef.current` and the pending tasks of the promise chain in FIFO order. -/
structure Attachment (α : Type) where
  key : String
  state : StorageState α
  prev : Option α
  opCtr : Nat
  queue : List (MutTask α)
deriving DecidableEq

/-- The attachment as created on mount: `{isLoading: true, error: null,
value: null}`, `prevRef = null`, `opRef = 0`, settled queue. -/
def initialAttachment (α : Type) (key : String) : Attachment α :=
  ⟨key, ⟨true, none, none⟩, none, 0, []⟩

/-- Observable actions of the engine: backend calls, broker publishes, error
reports (`reportError` feeds both the logger and `onError`), and the
best-effort cleanup erase issued on a corrupt entry. -/
inductive Event
  | setItemCall (k : String) (raw : String)
  | removeItemCall (k : String)
  | publishEv (k : String) (raw : Option String)
  | reportEv (e : StorageError)
  | cleanupRemoveCall (k : String)
deriving DecidableEq

/-- `setState` followed by the commit of the effect
`useEffect(() => { prevRef.current = state.value }, [state.value])`. -/
def setStateA (a : Attachment α) (s : StorageState α) : Attachment α :=
  { a with state := s, prev := s.value }

/-- Embedding of the broker `listener` installed by the hook: ignore foreign
keys; a `null` payload resets to `Ready(null)`; otherwise parse the payload,
on success overwrite with `Ready(parsed)`, on failure report and overwrite
with `Faulted(ParseError)`. -/
def listenerApply (parse : String → Option α) (a : Attachment α)
    (changedKey : String) (raw : Option String) : Attachment α × List Event :=
  if changedKey ≠ a.key then (a, [])
  else
    match raw with
    | none => (setStateA a ⟨false, none, none⟩, [])
    | some rv =>
        match parse rv with
        | some parsed => (setStateA a ⟨false, none, some parsed⟩, [])
        | none =>
            let err := parseError a.key
            (setStateA a ⟨false, some err, none⟩, [.reportEv err])

/-- A best-effort `removeItem(key).catch(handler)` call: the call is always
issued; when it faults the events of the attached catch handler follow
(`onFail = []` embeds the discarding handler `() => {}` of the engine). -/
def bestEffortRemove (k : String) (cleanupOk : Bool) (onFail : List Event) : List Event :=
  .cleanupRemoveCall k :: (if cleanupOk then [] else onFail)

/-- Outcome of the initial `backend.getItem` call: a raw value (or absence),
or a read fault (already wrapped by `withStorageErrorHandling`). -/
inductive ReadRes
  | ok (raw : Option String)
  | fail
deriving DecidableEq

/-- Embedding of the initial-load body of `useKeyValueStorage` (the async
IIFE in the main effect): read, classify faults, parse, and on a corrupt
entry report, fault the state and issue the best-effort cleanup whose own
failure is discarded by `.catch(() => {})`. -/
def initialLoad (parse : String → Option α) (a : Attachment α) (r : ReadRes)
    (cleanupOk : Bool) : Attachment α × List Event :=
  match r with
  | .fail =>
      let err := toStorageError (.storage (readError a.key)) a.key
      (setStateA a ⟨false, some err, none⟩, [.reportEv err])
  | .ok none => (setStateA a ⟨false, none, none⟩, [])
  | .ok (some raw) =>
      match parse raw with
      | some v => (setStateA a ⟨false, none, some v⟩, [])
      | none =>
          let err := parseError a.key
          (setStateA a ⟨false, some err, none⟩,
            .reportEv err :: bestEffortRemove a.key cleanupOk [])

/-- Embedding of the synchronous prefix of `setValue`: snapshot
`prevRef.current`, take a fresh operation id with `++opRef.current`, apply
the optimistic state `{isLoading: false, error: null, value}`, and append the
task to the promise chain. -/
def setValueSync (a : Attachment α) (v : Option α) : Attachment α :=
  { a with
      opCtr := a.opCtr + 1,
      state := ⟨false, none, v⟩,
      prev := v,
      queue := a.queue ++ [⟨v, a.prev, a.opCtr + 1⟩] }

/-- Embedding of the catch block of a `setValue` task: report the classified
error, roll the value back to the snapshot only when no newer `setValue` call
was issued since (`opRef.current === myOp`), otherwise only surface the error
(`setState((s) => ({ ...s, error: err }))`), and re-raise. `pre` holds the
events emitted before the fault. -/
def taskFail (a : Attachment α) (t : MutTask α) (err : StorageError)
    (pre : List Event) : Attachment α × List Event × Except StorageError Unit :=
  if a.opCtr = t.myOp then
    (setStateA a ⟨false, some err, t.prev⟩, pre ++ [.reportEv err], .error err)
  else
    ({ a with state := { a.state with error := some err } },
      pre ++ [.reportEv err], .error err)

/-- Embedding of one queued `setValue` task: erase or stringify-then-write,
publish on success (which synchronously invokes the own listener of this
attachment through the broker), and on any fault run the catch block.  `bOk`
is the oracle outcome of the single backend call the task performs. -/
def runTask (parse : String → Option α) (strf : α → Option String)
    (a : Attachment α) (t : MutTask α) (bOk : Bool) :
    Attachment α × List Event × Except StorageError Unit :=
  match t.value with
  | none =>
      if bOk then
        let notified := listenerApply parse a a.key none
        (notified.1, [.removeItemCall a.key, .publishEv a.key none] ++ notified.2, .ok ())
      else
        taskFail a t (toStorageError (.storage (deleteError a.key)) a.key)
          [.removeItemCall a.key]
  | some v =>
      match strf v with
      | none =>
          taskFail a t (toStorageError (.storage (stringifyErr a.key)) a.key) []
      | some s =>
          if bOk then
            let notified := listenerApply parse a a.key (some s)
            (notified.1, [.setItemCall a.key s, .publishEv a.key (some s)] ++ notified.2, .ok ())
          else
            taskFail a t (toStorageError (.storage (writeError a.key)) a.key)
              [.setItemCall a.key s]

/-- The atomic handler invocations of one attachment, as scheduled by the
cooperative runtime: settlement of the initial load, an incoming broker
broadcast, the synchronous prefix of a `setValue` call, and the settlement of
the next queued task of the promise chain. -/
inductive HookOp (α : Type)
  | load (r : ReadRes) (cleanupOk : Bool)
  | broadcast (changedKey : String) (raw : Option String)
  | mutate (v : Option α)
  | settleNext (bOk : Bool)

/-- Apply one handler invocation to the attachment, returning the emitted
events. -/
def applyOp (parse : String → Option α) (strf : α → Option String)
    (a : Attachment α) : HookOp α → Attachment α × List Event
  | .load r c => initialLoad parse a r c
  | .broadcast ck raw => listenerApply parse a ck raw
  | .mutate v => (setValueSync a v, [])
  | .settleNext bOk =>
      match a.queue with
      | [] => (a, [])
      | t :: rest =>
          let out := runTask parse strf { a with queue := rest } t bOk
          (out.1, out.2.1)

/-- Fold a list of handler invocations over the attachment. -/
def applyOps (parse : String → Option α) (strf : α → Option String) :
    Attachment α → List (HookOp α) → Attachment α
  | a, [] => a
  | a, o :: os => applyOps parse strf (applyOp parse strf a o).1 os

/-- Run the pending promise chain to exhaustion of the oracle: the next task
starts only once the previous one has settled, and it runs on success and on
failure alike (`.then(task, task)`).  Returns the final attachment, the
concatenated event trace, and the settlement of each task in order. -/
def runChain (parse : String → Option α) (strf : α → Option String) :
    Attachment α → List Bool →
    Attachment α × List Event × List (Except StorageError Unit)
  | a, [] => (a, [], [])
  | a, b :: bs =>
      match a.queue with
      | [] => (a, [], [])
      | t :: rest =>
          let out := runTask parse strf { a with queue := rest } t b
          let next := runChain parse strf out.1 bs
          (next.1, out.2.1 ++ next.2.1, out.2.2 :: next.2.2)

/-- Is the event a backend write or erase call? -/
def isBackendOp : Event → Bool
  | .setItemCall _ _ => true
  | .removeItemCall _ => true
  | _ => false

/-- The subtrace of backend write/erase calls. -/
def backendOps (evs : List Event) : List Event := evs.filter isBackendOp

/-- The backend call a `setValue(v)` task performs: an erase for `null`, a
write of the serialization otherwise, and no call at all when
`JSON.stringify` faults. -/
def callBackendOp (strf : α → Option String) (k : String) (v : Option α) :
    Option Event :=
  match v with
  | none => some (.removeItemCall k)
  | some x => (strf x).map (fun s => .setItemCall k s)

/-- Issue a sequence of `setValue` calls back to back, without awaiting any
of them (only the synchronous prefixes run; the tasks pile up in the chain). -/
def issueAll (a : Attachment α) : List (Option α) → Attachment α
  | [] => a
  | v :: vs => issueAll (setValueSync a v) vs

end EngineDefs

/-! ## The legacy hook (`useStorageState`) -/

section LegacyDefs

variable {α : Type}

/-- The state record of the legacy hook (field named `loading` there). -/
structure LegacyState (α : Type) where
  loading : Bool
  error : Option StorageError
  value : Option α
deriving DecidableEq

/-- Embedding of the initial-load effect of `useStorageState`
(`src/useStorageState.ts`): identical shape to the engine load, except that
the corrupt-entry cleanup is `setStorageItemAsync(key, null).catch(handleError)`:
its fault is wrapped as a write error and reported, not discarded. -/
def initialLoadLegacy (parse : String → Option α) (k : String) (r : ReadRes)
    (cleanupOk : Bool) : LegacyState α × List Event :=
  match r with
  | .fail =>
      let err := toStorageError (.storage (readError k)) k
      (⟨false, some err, none⟩, [.reportEv err])
  | .ok none => (⟨false, none, none⟩, [])
  | .ok (some raw) =>
      match parse raw with
      | some v => (⟨false, none, some v⟩, [])
      | none =>
          let err := parseError k
          (⟨false, some err, none⟩,
            .reportEv err :: bestEffortRemove k cleanupOk [.reportEv (writeError k)])

/-- The state the broker listener of the historical iteration
`src/unnamed/part_004` computes from a broadcast payload (same shape as the
current listener: `null` resets, otherwise parse with `Faulted(ParseError)`
on failure), together with the events its own run emits. -/
def listenerState (parse : String → Option α) (k : String) (raw : Option String) :
    StorageState α × List Event :=
  match raw with
  | none => (⟨false, none, none⟩, [])
  | some rv =>
      match parse rv with
      | some parsed => (⟨false, none, some parsed⟩, [])
      | none => (⟨false, some (parseError k), none⟩, [.reportEv (parseError k)])

/-- Embedding of one queued `setValue` task of the historical iteration
`src/unnamed/part_004` (lines 262-291): `notifySubscribers` is called BEFORE
`await backend.removeItem/setItem`, so the publish (which synchronously runs
the own listener) happens before the backend call and regardless of its
outcome; only a `JSON.stringify` fault precedes the publish.  On any fault
the catch reports, rolls the state back to `prevValue` unconditionally (this
iteration has no operation counter) and re-raises. -/
def runTaskP4 (parse : String → Option α) (strf : α → Option String)
    (key : String) (v : Option α) (prevValue : Option α) (bOk : Bool) :
    StorageState α × List Event × Except StorageError Unit :=
  match v with
  | none =>
      let notified := listenerState parse key (none : Option String)
      if bOk then
        (notified.1, .publishEv key none :: (notified.2 ++ [.removeItemCall key]),
          .ok ())
      else
        let err := toStorageError (.storage (deleteError key)) key
        (⟨false, some err, prevValue⟩,
          .publishEv key none :: (notified.2 ++ [.removeItemCall key, .reportEv err]),
          .error err)
  | some x =>
      match strf x with
      | none =>
          let err := toStorageError (.storage (stringifyErr key)) key
          (⟨false, some err, prevValue⟩, [.reportEv err], .error err)
      | some s =>
          let notified := listenerState parse key (some s)
          if bOk then
            (notified.1,
              .publishEv key (some s) :: (notified.2 ++ [.setItemCall key s]),
              .ok ())
          else
            let err := toStorageError (.storage (writeError key)) key
            (⟨false, some err, prevValue⟩,
              .publishEv key (some s)
                :: (notified.2 ++ [.setItemCall key s, .reportEv err]),
              .error err)

end LegacyDefs

/-! ## Concrete instances used by the witnesses -/

/-- Decidable equality of task settlements, used by the concrete witnesses. -/
instance : DecidableEq (Except StorageError Unit) :=
  fun a b =>
    match a, b with
    | .ok (), .ok () => isTrue rfl
    | .error x, .error y =>
        if h : x = y then isTrue (by rw [h])
        else isFalse (fun hc => h (Except.error.inj hc))
    | .ok _, .error _ => isFalse (fun hc => Except.noConfusion hc)
    | .error _, .ok _ => isFalse (fun hc => Except.noConfusion hc)

/-- A concrete deserializer standing in for `JSON.parse` on `Nat` payloads. -/
def demoParse : String → Option Nat :=
  fun s => if s = "7" then some 7 else none

/-- A concrete serializer standing in for `JSON.stringify`: it succeeds
exactly on `7` (any other input models a value `JSON.stringify` rejects). -/
def demoStrf : Nat → Option String :=
  fun n => if n = 7 then some "7" else none

/-- A concrete settled attachment holding value `1`. -/
def attW : Attachment Nat := ⟨"k", ⟨false, none, some 1⟩, some 1, 1, []⟩

/-- The task of a `setValue 7` call issued on `attW` (operation id 1,
snapshot `1`). -/
def taskW : MutTask Nat := ⟨some 7, some 1, 1⟩

/-- A freshly mounted attachment. -/
def att0 : Attachment Nat := ⟨"k", ⟨true, none, none⟩, none, 0, []⟩

/-! ## Broker lemmas -/

section BrokerProofs

variable {L : Type} [DecidableEq L]

theorem getL_setEntry (m : List (String × List L)) (k : String) (v : List L) :
    getL (setEntry m k v) k = v := by
  induction m with
  | nil => simp [setEntry, getL]
  | cons kv rest ih =>
      by_cases h : kv.1 = k
      · simp [setEntry, h, getL]
      · simp [setEntry, h, getL, ih]

theorem getL_deleteEntry (m : List (String × List L)) (k : String) :
    getL (deleteEntry m k) k = [] := by
  induction m with
  | nil => simp [deleteEntry, getL]
  | cons kv rest ih =>
      by_cases h : kv.1 = k
      · simp [deleteEntry, h, ih]
      · simp [deleteEntry, h, getL, ih]

theorem hasKey_deleteEntry (m : List (String × List L)) (k : String) :
    hasKey (deleteEntry m k) k = false := by
  induction m with
  | nil => simp [deleteEntry, hasKey]
  | cons kv rest ih =>
      by_cases h : kv.1 = k
      · simp [deleteEntry, h, ih]
      · simp [deleteEntry, h, hasKey, ih]

theorem deleteEntry_absent (m : List (String × List L)) (k : String)
    (h : hasKey m k = false) : deleteEntry m k = m := by
  induction m with
  | nil => simp [deleteEntry]
  | cons kv rest ih =>
      by_cases hk : kv.1 = k
      · simp [hasKey, hk] at h
      · simp [hasKey, hk] at h
        simp [deleteEntry, hk, ih h]

theorem getL_absent (m : List (String × List L)) (k : String)
    (h : hasKey m k = false) : getL m k = [] := by
  induction m with
  | nil => simp [getL]
  | cons kv rest ih =>
      by_cases hk : kv.1 = k
      · simp [hasKey, hk] at h
      · simp [hasKey, hk] at h
        simp [getL, hk, ih h]

theorem setEntry_self (m : List (String × List L)) (k : String)
    (h : getL m k ≠ []) : setEntry m k (getL m k) = m := by
  induction m with
  | nil => simp [getL] at h
  | cons kv rest ih =>
      obtain ⟨k0, v0⟩ := kv
      by_cases hk : k0 = k
      · simp [getL, hk, setEntry]
      · simp [getL, hk] at h
        simp [setEntry, hk, getL, hk, ih h]

theorem noEmpty_setEntry (m : List (String × List L)) (k : String) (v : List L)
    (hm : ∀ kv ∈ m, kv.2 ≠ ([] : List L)) (hv : v ≠ []) :
    ∀ kv ∈ setEntry m k v, kv.2 ≠ ([] : List L) := by
  induction m with
  | nil =>
      intro kv hkv
      simp [setEntry] at hkv
      simp [hkv, hv]
  | cons kv0 rest ih =>
      intro kv hkv
      by_cases hk : kv0.1 = k
      · simp [setEntry, hk] at hkv
        rcases hkv with h | h
        · simp [h, hv]
        · exact hm kv (List.mem_cons_of_mem _ h)
      · simp [setEntry, hk] at hkv
        rcases hkv with h | h
        · exact hm kv (h ▸ List.mem_cons_self _ _)
        · exact ih (fun x hx => hm x (List.mem_cons_of_mem _ hx)) kv h

theorem noEmpty_deleteEntry (m : List (String × List L)) (k : String)
    (hm : ∀ kv ∈ m, kv.2 ≠ ([] : List L)) :
    ∀ kv ∈ deleteEntry m k, kv.2 ≠ ([] : List L) := by
  induction m with
  | nil => intro kv hkv; simp [deleteEntry] at hkv
  | cons kv0 rest ih =>
      intro kv hkv
      by_cases hk : kv0.1 = k
      · simp [deleteEntry, hk] at hkv
        exact ih (fun x hx => hm x (List.mem_cons_of_mem _ hx)) kv hkv
      · simp [deleteEntry, hk] at hkv
        rcases hkv with h | h
        · exact hm kv (h ▸ List.mem_cons_self _ _)
        · exact ih (fun x hx => hm x (List.mem_cons_of_mem _ hx)) kv h

/-- C9: the broker registry never maps a key to an empty listener list:
subscribing appends to a (then nonempty) list, unsubscribing either stores
the nonempty filtered list or, when the filtered list is empty, deletes the
entry of the key outright, and publishing leaves the registry untouched; in
particular the unsubscribed listener is gone from the list of the key after
`unsubscribe`. -/
theorem C9_registry_no_empty_entries (p : Publisher L) (k : String) (l l2 : L)
    (hp : NoEmptyInv p) :
    NoEmptyInv (subscribe p k l)
    ∧ NoEmptyInv (unsubscribe p k l2)
    ∧ (publish p k).1 = p
    ∧ l2 ∉ getL (unsubscribe p k l2).subscribers k
    ∧ ((getL p.subscribers k).filter (fun fn => decide (fn ≠ l2)) = [] →
        hasKey (unsubscribe p k l2).subscribers k = false) := by
  refine ⟨?_, ?_, rfl, ?_, ?_⟩
  · intro kv hkv
    exact noEmpty_setEntry _ _ _ hp (by simp) kv hkv
  · intro kv hkv
    simp only [unsubscribe] at hkv
    by_cases hlen :
        ((getL p.subscribers k).filter (fun fn => decide (fn ≠ l2))).length = 0
    · rw [if_pos hlen] at hkv
      exact noEmpty_deleteEntry _ _ hp kv hkv
    · rw [if_neg hlen] at hkv
      refine noEmpty_setEntry _ _ _ hp ?_ kv hkv
      intro hnil
      exact hlen (by rw [hnil]; rfl)
  · simp only [unsubscribe]
    by_cases hlen :
        ((getL p.subscribers k).filter (fun fn => decide (fn ≠ l2))).length = 0
    · rw [if_pos hlen]
      show l2 ∉ getL (deleteEntry p.subscribers k) k
      rw [getL_deleteEntry]
      simp
    · rw [if_neg hlen]
      show l2 ∉ getL (setEntry p.subscribers k _) k
      rw [getL_setEntry]
      intro hmem
      have := List.of_mem_filter hmem
      simp at this
  · intro hfil
    simp only [unsubscribe]
    rw [if_pos (by rw [hfil]; rfl)]
    exact hasKey_deleteEntry _ _

/-- Witness for C9 at a concrete registry. -/
theorem C9_registry_no_empty_entries_wit :
    NoEmptyInv (Publisher.mk [("a", [1])] : Publisher Nat)
    ∧ NoEmptyInv (unsubscribe (Publisher.mk [("a", [1])] : Publisher Nat) "a" 1) :=
  ⟨by decide,
    (C9_registry_no_empty_entries (Publisher.mk [("a", [1])]) "a" 2 1 (by decide)).2.1⟩

/-- C10: broker listener lists are multisets of occurrences: `subscribe`
appends one more occurrence of the listener (even if already present),
`publish` invokes exactly the registered occurrences in order and does not
change the registry, one `unsubscribe` filters out every occurrence of the
listener at once, unsubscribing on an unknown key or a listener that is not
registered is a no-op, and publishing on a key with no subscribers invokes
nobody; none of these operations can fail. -/
theorem C10_subscription_multiplicity (p : Publisher L) (k : String) (l : L) :
    getL (subscribe p k l).subscribers k = getL p.subscribers k ++ [l]
    ∧ (publish p k).2 = getL p.subscribers k
    ∧ (publish p k).1 = p
    ∧ getL (unsubscribe p k l).subscribers k
        = (getL p.subscribers k).filter (fun fn => decide (fn ≠ l))
    ∧ (hasKey p.subscribers k = false → unsubscribe p k l = p)
    ∧ (l ∉ getL p.subscribers k → getL p.subscribers k ≠ [] → unsubscribe p k l = p)
    ∧ (getL p.subscribers k = [] → (publish p k).2 = []) := by
  refine ⟨?_, rfl, rfl, ?_, ?_, ?_, ?_⟩
  · simp [subscribe, getL_setEntry]
  · simp only [unsubscribe]
    by_cases hlen :
        ((getL p.subscribers k).filter (fun fn => decide (fn ≠ l))).length = 0
    · have hfil : (getL p.subscribers k).filter (fun fn => decide (fn ≠ l)) = [] :=
        List.length_eq_zero.mp hlen
      rw [if_pos hlen]
      show getL (deleteEntry p.subscribers k) k = _
      rw [getL_deleteEntry, hfil]
    · rw [if_neg hlen]
      show getL (setEntry p.subscribers k _) k = _
      rw [getL_setEntry]
  · intro habs
    have hget : getL p.subscribers k = [] := getL_absent _ _ habs
    simp only [unsubscribe, hget]
    rw [if_pos (by rfl), deleteEntry_absent _ _ habs]
  · intro hnot hne
    have hfil : (getL p.subscribers k).filter (fun fn => decide (fn ≠ l))
        = getL p.subscribers k := by
      apply List.filter_eq_self.mpr
      intro x hx
      simp only [decide_eq_true_eq]
      intro hxl
      exact hnot (hxl ▸ hx)
    have hlen : ¬((getL p.subscribers k).filter (fun fn => decide (fn ≠ l))).length = 0 := by
      rw [hfil]
      intro h0
      exact hne (List.length_eq_zero.mp h0)
    simp only [unsubscribe]
    rw [if_neg hlen, hfil, setEntry_self _ _ hne]
  · intro hget
    simp [publish, hget]

/-- Witness for C10 at a concrete registry with a duplicated listener. -/
theorem C10_subscription_multiplicity_wit :
    getL (unsubscribe (Publisher.mk [("a", [1, 2, 1])] : Publisher Nat) "a" 1).subscribers "a" = [2]
    ∧ (hasKey (Publisher.mk [("a", [1, 2, 1])] : Publisher Nat).subscribers "b" = false
        ∧ unsubscribe (Publisher.mk [("a", [1, 2, 1])] : Publisher Nat) "b" 3
            = Publisher.mk [("a", [1, 2, 1])]) := by
  have h := C10_subscription_multiplicity (Publisher.mk [("a", [1, 2, 1])] : Publisher Nat) "a" 1
  have h2 := C10_subscription_multiplicity (Publisher.mk [("a", [1, 2, 1])] : Publisher Nat) "b" 3
  refine ⟨?_, by decide, h2.2.2.2.2.1 (by decide)⟩
  have := h.2.2.2.1
  simp only [this]
  decide

end BrokerProofs

/-! ## Engine lemmas -/

section EngineProofs

variable {α : Type}

theorem prevSync_listener (parse : String → Option α) (a : Attachment α)
    (ck : String) (raw : Option String) (h : a.prev = a.state.value) :
    (listenerApply parse a ck raw).1.prev
      = (listenerApply parse a ck raw).1.state.value := by
  by_cases hck : ck ≠ a.key
  · simp [listenerApply, hck, h]
  · cases raw with
    | none => simp [listenerApply, hck, setStateA]
    | some rv =>
        cases hp : parse rv with
        | some parsed => simp [listenerApply, hck, hp, setStateA]
        | none => simp [listenerApply, hck, hp, setStateA]

theorem prevSync_runTask (parse : String → Option α) (strf : α → Option String)
    (a : Attachment α) (t : MutTask α) (bOk : Bool) (h : a.prev = a.state.value) :
    (runTask parse strf a t bOk).1.prev
      = (runTask parse strf a t bOk).1.state.value := by
  obtain ⟨tv, tp, tn⟩ := t
  cases tv with
  | none =>
      cases bOk with
      | true => exact prevSync_listener parse a a.key none h
      | false =>
          simp only [runTask, taskFail, Bool.false_eq_true, if_false]
          split
          · rfl
          · exact h
  | some v =>
      cases hs : strf v with
      | none =>
          simp only [runTask, hs, taskFail]
          split
          · rfl
          · exact h
      | some s =>
          cases bOk with
          | true =>
              simp only [runTask, hs, if_true]
              exact prevSync_listener parse a a.key (some s) h
          | false =>
              simp only [runTask, hs, taskFail, Bool.false_eq_true, if_false]
              split
              · rfl
              · exact h

theorem prevSync_applyOp (parse : String → Option α) (strf : α → Option String)
    (a : Attachment α) (o : HookOp α) (h : a.prev = a.state.value) :
    (applyOp parse strf a o).1.prev = (applyOp parse strf a o).1.state.value := by
  cases o with
  | load r c =>
      cases r with
      | fail => rfl
      | ok raw =>
          cases raw with
          | none => rfl
          | some rv =>
              simp only [applyOp, initialLoad]
              cases parse rv <;> rfl
  | broadcast ck raw => exact prevSync_listener parse a ck raw h
  | mutate v => rfl
  | settleNext bOk =>
      simp only [applyOp]
      cases hq : a.queue with
      | nil => exact h
      | cons t rest => exact prevSync_runTask parse strf _ t bOk h

theorem prevSync_applyOps (parse : String → Option α) (strf : α → Option String)
    (b : Attachment α) (ops : List (HookOp α)) (h : b.prev = b.state.value) :
    (applyOps parse strf b ops).prev = (applyOps parse strf b ops).state.value := by
  induction ops generalizing b with
  | nil => exact h
  | cons o os ih => exact ih _ (prevSync_applyOp parse strf b o h)

/-- C3: every `setValue` call, with any value including `null`, synchronously
sets the attachment state to `{isLoading: false, error: null, value}` before
any backend I/O (the mutate step emits no events), and the queued task
snapshots as `prev` the value the attachment held immediately before the
call.  The hypothesis that `prevRef.current` mirrors `state.value` is the
invariant maintained by the `useEffect` on `state.value`; the last conjunct
proves that every handler of the engine preserves it. -/
theorem C3_optimistic_update (parse : String → Option α)
    (strf : α → Option String) (a : Attachment α) (v : Option α)
    (hsync : a.prev = a.state.value) :
    (setValueSync a v).state = ⟨false, none, v⟩
    ∧ (setValueSync a v).queue = a.queue ++ [⟨v, a.state.value, a.opCtr + 1⟩]
    ∧ (applyOp parse strf a (.mutate v)).2 = []
    ∧ (∀ (b : Attachment α) (ops : List (HookOp α)), b.prev = b.state.value →
        (applyOps parse strf b ops).prev = (applyOps parse strf b ops).state.value) := by
  refine ⟨rfl, ?_, rfl, fun b ops hb => prevSync_applyOps parse strf b ops hb⟩
  simp [setValueSync, hsync]

/-- Witness for C3 on a settled attachment holding value `1`. -/
theorem C3_optimistic_update_wit :
    attW.prev = attW.state.value
    ∧ (setValueSync attW (some 5)).state = ⟨false, none, some 5⟩ :=
  ⟨rfl, (C3_optimistic_update demoParse demoStrf attW (some 5) rfl).1⟩

/-- C5: outcome of the initial load: a read fault yields
`{isLoading: false, error: classified read error, value: null}`; a `null` raw
value yields `Ready(null)`; a parsable raw value yields `Ready(parsed)`; an
unparsable raw value yields `Faulted(ParseError)` and a best-effort erase of
the corrupt entry is issued against the backend. -/
theorem C5_initial_load (parse : String → Option α) (a : Attachment α) (c : Bool) :
    (initialLoad parse a .fail c).1.state = ⟨false, some (readError a.key), none⟩
    ∧ (initialLoad parse a (.ok none) c).1.state = ⟨false, none, none⟩
    ∧ (∀ raw v, parse raw = some v →
        (initialLoad parse a (.ok (some raw)) c).1.state = ⟨false, none, some v⟩)
    ∧ (∀ raw, parse raw = none →
        (initialLoad parse a (.ok (some raw)) c).1.state
            = ⟨false, some (parseError a.key), none⟩
        ∧ Event.cleanupRemoveCall a.key ∈ (initialLoad parse a (.ok (some raw)) c).2) := by
  refine ⟨rfl, rfl, ?_, ?_⟩
  · intro raw v hv
    simp [initialLoad, hv, setStateA]
  · intro raw hv
    constructor <;> simp [initialLoad, hv, setStateA, bestEffortRemove]

/-- Witness for C5 at a parsable stored value. -/
theorem C5_initial_load_wit :
    demoParse "7" = some 7
    ∧ (initialLoad demoParse att0 (.ok (some "7")) true).1.state
        = ⟨false, none, some 7⟩ :=
  ⟨by decide, (C5_initial_load demoParse att0 true).2.2.1 "7" 7 (by decide)⟩

/-- C6: a broker notification delivered for the own key of the attachment
overwrites the state unconditionally: `null` resets to `Ready(null)`, a
parsable payload gives `Ready(parsed)`, an unparsable one gives
`Faulted(ParseError)`; the task queue and the operation counter are neither
consulted nor modified — the resulting state is the same for any two
attachments on the same key, whatever their state, queue or counter. -/
theorem C6_broadcast_unconditional (parse : String → Option α)
    (a b : Attachment α) (raw : Option String) (hk : b.key = a.key) :
    (raw = none → (listenerApply parse a a.key raw).1.state = ⟨false, none, none⟩)
    ∧ (∀ rv v, raw = some rv → parse rv = some v →
        (listenerApply parse a a.key raw).1.state = ⟨false, none, some v⟩)
    ∧ (∀ rv, raw = some rv → parse rv = none →
        (listenerApply parse a a.key raw).1.state
            = ⟨false, some (parseError a.key), none⟩)
    ∧ (listenerApply parse a a.key raw).1.queue = a.queue
    ∧ (listenerApply parse a a.key raw).1.opCtr = a.opCtr
    ∧ (listenerApply parse a a.key raw).1.state
        = (listenerApply parse b b.key raw).1.state := by
  refine ⟨?_, ?_, ?_, ?_, ?_, ?_⟩
  · intro h
    simp [listenerApply, h, setStateA]
  · intro rv v hr hv
    simp [listenerApply, hr, hv, setStateA]
  · intro rv hr hv
    simp [listenerApply, hr, hv, setStateA]
  · cases raw with
    | none => simp [listenerApply, setStateA]
    | some rv =>
        cases hp : parse rv with
        | some parsed => simp [listenerApply, hp, setStateA]
        | none => simp [listenerApply, hp, setStateA]
  · cases raw with
    | none => simp [listenerApply, setStateA]
    | some rv =>
        cases hp : parse rv with
        | some parsed => simp [listenerApply, hp, setStateA]
        | none => simp [listenerApply, hp, setStateA]
  · cases raw with
    | none => simp [listenerApply, setStateA]
    | some rv =>
        cases hp : parse rv with
        | some parsed => simp [listenerApply, hp, setStateA]
        | none => simp [listenerApply, hp, setStateA, hk]

/-- Witness for C6: two attachments on the same key with different states,
queues and counters converge to the same state on an unparsable payload. -/
theorem C6_broadcast_unconditional_wit :
    attW.key = att0.key
    ∧ (listenerApply demoParse att0 att0.key (some "bad")).1.state
        = ⟨false, some (parseError "k"), none⟩ := by
  refine ⟨rfl, ?_⟩
  have h := (C6_broadcast_unconditional demoParse att0 attW (some "bad") rfl).2.2.1
      "bad" rfl (by decide)
  simpa using h

theorem taskFail_spec (a : Attachment α) (t : MutTask α) (e : StorageError)
    (pre : List Event) :
    (taskFail a t e pre).2.2 = .error e
    ∧ Event.reportEv e ∈ (taskFail a t e pre).2.1
    ∧ (a.opCtr = t.myOp → (taskFail a t e pre).1.state = ⟨false, some e, t.prev⟩)
    ∧ (a.opCtr ≠ t.myOp →
        (taskFail a t e pre).1.state.value = a.state.value
        ∧ (taskFail a t e pre).1.state.error = some e
        ∧ (taskFail a t e pre).1.state.isLoading = a.state.isLoading) := by
  by_cases hop : a.opCtr = t.myOp
  · exact ⟨by simp [taskFail, hop], by simp [taskFail, hop],
      fun _ => by simp [taskFail, hop, setStateA], fun hne => absurd hop hne⟩
  · exact ⟨by simp [taskFail, hop], by simp [taskFail, hop],
      fun heq => absurd heq hop,
      fun _ => ⟨by simp [taskFail, hop], by simp [taskFail, hop],
        by simp [taskFail, hop]⟩⟩

theorem runTask_error_spec (parse : String → Option α) (strf : α → Option String)
    (a : Attachment α) (t : MutTask α) (bOk : Bool) (err : StorageError)
    (hres : (runTask parse strf a t bOk).2.2 = .error err) :
    Event.reportEv err ∈ (runTask parse strf a t bOk).2.1
    ∧ (t.value = none → err = deleteError a.key)
    ∧ (∀ v s, t.value = some v → strf v = some s → err = writeError a.key)
    ∧ (∀ v, t.value = some v → strf v = none → err = stringifyErr a.key)
    ∧ (a.opCtr = t.myOp →
        (runTask parse strf a t bOk).1.state = ⟨false, some err, t.prev⟩)
    ∧ (a.opCtr ≠ t.myOp →
        (runTask parse strf a t bOk).1.state.value = a.state.value
        ∧ (runTask parse strf a t bOk).1.state.error = some err
        ∧ (runTask parse strf a t bOk).1.state.isLoading = a.state.isLoading) := by
  obtain ⟨tv, tp, tn⟩ := t
  cases tv with
  | none =>
      cases bOk with
      | true => simp [runTask] at hres
      | false =>
          have hrt : runTask parse strf a ⟨none, tp, tn⟩ false
              = taskFail a ⟨none, tp, tn⟩ (deleteError a.key) [.removeItemCall a.key] := rfl
          have hs := taskFail_spec a ⟨none, tp, tn⟩ (deleteError a.key)
            [.removeItemCall a.key]
          rw [hrt] at hres ⊢
          rw [hs.1] at hres
          have herr : err = deleteError a.key := (Except.error.inj hres).symm
          subst herr
          exact ⟨hs.2.1, fun _ => rfl, fun v s hv => by simp at hv,
            fun v hv => by simp at hv, hs.2.2.1, hs.2.2.2⟩
  | some v =>
      cases hsf : strf v with
      | none =>
          have hrt : runTask parse strf a ⟨some v, tp, tn⟩ bOk
              = taskFail a ⟨some v, tp, tn⟩ (stringifyErr a.key) [] := by
            simp [runTask, hsf, toStorageError]
          have hs := taskFail_spec a ⟨some v, tp, tn⟩ (stringifyErr a.key) []
          rw [hrt] at hres ⊢
          rw [hs.1] at hres
          have herr : err = stringifyErr a.key := (Except.error.inj hres).symm
          subst herr
          refine ⟨hs.2.1, fun h => by simp at h, ?_, ?_, hs.2.2.1, hs.2.2.2⟩
          · intro v2 s2 hv2 hs2
            rw [Option.some.inj hv2] at hsf
            rw [hsf] at hs2
            cases hs2
          · intro v2 hv2 _
            rfl
      | some s =>
          cases bOk with
          | true => simp [runTask, hsf] at hres
          | false =>
              have hrt : runTask parse strf a ⟨some v, tp, tn⟩ false
                  = taskFail a ⟨some v, tp, tn⟩ (writeError a.key)
                      [.setItemCall a.key s] := by
                simp [runTask, hsf, toStorageError]
              have hs := taskFail_spec a ⟨some v, tp, tn⟩ (writeError a.key)
                [.setItemCall a.key s]
              rw [hrt] at hres ⊢
              rw [hs.1] at hres
              have herr : err = writeError a.key := (Except.error.inj hres).symm
              subst herr
              refine ⟨hs.2.1, fun h => by simp at h, fun v2 s2 _ _ => rfl, ?_,
                hs.2.2.1, hs.2.2.2⟩
              intro v2 hv2 hn
              rw [Option.some.inj hv2] at hsf
              rw [hsf] at hn
              cases hn

/-- C1: when a `setValue` task faults, the fault is classified to a
`StorageError` (already typed faults pass through `toStorageError`
unchanged — here the wrapped delete/write error or the stringify error of
the faulting step) and re-raised as the settlement of the task; if the
operation counter still equals the `myOp` captured by the call, the state is
reverted to the `prev` snapshot with the error set; otherwise only the error
is set and the current newer optimistic value (and `isLoading`) are left
untouched. -/
theorem C1_fault_rollback_supersession (parse : String → Option α)
    (strf : α → Option String) (a : Attachment α) (t : MutTask α) (bOk : Bool)
    (err : StorageError)
    (hres : (runTask parse strf a t bOk).2.2 = .error err) :
    Event.reportEv err ∈ (runTask parse strf a t bOk).2.1
    ∧ (∀ (e : StorageError) (k : String), toStorageError (.storage e) k = e)
    ∧ (t.value = none → err = deleteError a.key)
    ∧ (∀ v s, t.value = some v → strf v = some s → err = writeError a.key)
    ∧ (∀ v, t.value = some v → strf v = none → err = stringifyErr a.key)
    ∧ (a.opCtr = t.myOp →
        (runTask parse strf a t bOk).1.state = ⟨false, some err, t.prev⟩)
    ∧ (a.opCtr ≠ t.myOp →
        (runTask parse strf a t bOk).1.state.value = a.state.value
        ∧ (runTask parse strf a t bOk).1.state.error = some err
        ∧ (runTask parse strf a t bOk).1.state.isLoading = a.state.isLoading) := by
  have h := runTask_error_spec parse strf a t bOk err hres
  exact ⟨h.1, fun e k => rfl, h.2.1, h.2.2.1, h.2.2.2.1, h.2.2.2.2.1, h.2.2.2.2.2⟩

/-- Witness for C1: a failed write with no supersession rolls back to the
snapshot. -/
theorem C1_fault_rollback_supersession_wit :
    (runTask demoParse demoStrf attW taskW false).2.2 = .error (writeError "k")
    ∧ (runTask demoParse demoStrf attW taskW false).1.state
        = ⟨false, some (writeError "k"), some 1⟩ := by
  refine ⟨by decide, ?_⟩
  exact (C1_fault_rollback_supersession demoParse demoStrf attW taskW false
    (writeError "k") (by decide)).2.2.2.2.2.1 (by decide)

theorem listener_none_events (parse : String → Option α) (a : Attachment α) :
    (listenerApply parse a a.key none).2 = [] := by
  simp [listenerApply]

theorem publish_free_listener (parse : String → Option α) (a : Attachment α)
    (ck : String) (raw : Option String) :
    ∀ k r, Event.publishEv k r ∉ (listenerApply parse a ck raw).2 := by
  intro k r
  by_cases hck : ck ≠ a.key
  · simp [listenerApply, hck]
  · cases raw with
    | none => simp [listenerApply, hck]
    | some rv => cases hp : parse rv <;> simp [listenerApply, hck, hp]

theorem backendOps_listener (parse : String → Option α) (a : Attachment α)
    (ck : String) (raw : Option String) :
    backendOps (listenerApply parse a ck raw).2 = [] := by
  by_cases hck : ck ≠ a.key
  · simp [listenerApply, hck, backendOps]
  · cases raw with
    | none => simp [listenerApply, hck, backendOps]
    | some rv =>
        cases hp : parse rv <;>
          simp [listenerApply, hck, hp, backendOps, isBackendOp]

/-- C4 counterexample: in the historical iteration `src/unnamed/part_004`,
cited by the claim, the task of `setValue 7` with a failing backend write
still publishes — and the publish is the very first event, before the
backend call — while the task settles with the write fault; this refutes
the claim that a publish occurs only when, and only after, the backend
operation succeeded. -/
theorem C4_publish_before_backend_cex :
    Event.publishEv "k" (some "7")
      ∈ (runTaskP4 demoParse demoStrf "k" (some 7) (some 1) false).2.1
    ∧ (runTaskP4 demoParse demoStrf "k" (some 7) (some 1) false).2.1.head?
        = some (Event.publishEv "k" (some "7"))
    ∧ (runTaskP4 demoParse demoStrf "k" (some 7) (some 1) false).2.2
        = .error (writeError "k") := by
  decide

/-- C4 (amended): in the current engine (`src/useKeyValueStorage.ts`) a task
publishes on the broker exactly when its backend operation succeeded, right
after that operation, with the serialized value (or `null` for an erase),
and publishes nothing when the backend call or the serialization faults; in
the historical iteration `src/unnamed/part_004`, however, the task publishes
before awaiting the backend operation and regardless of its outcome — the
publish is the first event of the task whenever serialization succeeds, and
it is present even when the backend call then faults. -/
theorem C4_publish_iff_backend_success_amended (parse : String → Option α)
    (strf : α → Option String) (a : Attachment α) (t : MutTask α) (bOk : Bool) :
    (t.value = none → bOk = true →
        (runTask parse strf a t bOk).2.1
          = [.removeItemCall a.key, .publishEv a.key none])
    ∧ (∀ v s, t.value = some v → strf v = some s → bOk = true →
        ∃ tail, (runTask parse strf a t bOk).2.1
            = [.setItemCall a.key s, .publishEv a.key (some s)] ++ tail
          ∧ (∀ k r, Event.publishEv k r ∉ tail) ∧ backendOps tail = [])
    ∧ (bOk = false → ∀ k r, Event.publishEv k r ∉ (runTask parse strf a t bOk).2.1)
    ∧ (∀ v, t.value = some v → strf v = none →
        ∀ k r, Event.publishEv k r ∉ (runTask parse strf a t bOk).2.1)
    ∧ (t.value = none →
        (runTaskP4 parse strf a.key t.value t.prev bOk).2.1.head?
          = some (.publishEv a.key none))
    ∧ (∀ v s, t.value = some v → strf v = some s →
        (runTaskP4 parse strf a.key t.value t.prev bOk).2.1.head?
          = some (.publishEv a.key (some s)))
    ∧ (∀ v s, t.value = some v → strf v = some s → bOk = false →
        Event.publishEv a.key (some s)
          ∈ (runTaskP4 parse strf a.key t.value t.prev false).2.1
        ∧ (runTaskP4 parse strf a.key t.value t.prev false).2.2
            = .error (writeError a.key)) := by
  obtain ⟨tv, tp, tn⟩ := t
  refine ⟨?_, ?_, ?_, ?_, ?_, ?_, ?_⟩
  · intro hv hb
    simp only at hv
    subst hv hb
    simp [runTask, listener_none_events]
  · intro v s hv hs hb
    simp only at hv
    subst hv hb
    refine ⟨(listenerApply parse a a.key (some s)).2, ?_,
      publish_free_listener parse a a.key (some s),
      backendOps_listener parse a a.key (some s)⟩
    simp [runTask, hs]
  · intro hb k r
    subst hb
    cases tv with
    | none =>
        by_cases hop : a.opCtr = tn <;> simp [runTask, taskFail, hop]
    | some v =>
        cases hs : strf v with
        | none => by_cases hop : a.opCtr = tn <;> simp [runTask, hs, taskFail, hop]
        | some s => by_cases hop : a.opCtr = tn <;> simp [runTask, hs, taskFail, hop]
  · intro v hv hs k r
    simp only at hv
    subst hv
    by_cases hop : a.opCtr = tn <;> simp [runTask, hs, taskFail, hop]
  · intro hv
    simp only at hv
    subst hv
    cases bOk <;> simp [runTaskP4, listenerState]
  · intro v s hv hs
    simp only at hv
    subst hv
    cases bOk <;> simp [runTaskP4, hs, listenerState]
  · intro v s hv hs hb
    simp only at hv
    subst hv
    constructor
    · simp [runTaskP4, hs]
    · simp [runTaskP4, hs, toStorageError]

/-- Witness for C4 (amended): a successful erase in the current engine emits
exactly the backend call then the publish of `null`. -/
theorem C4_publish_iff_backend_success_amended_wit :
    (runTask demoParse demoStrf attW ⟨none, some 1, 1⟩ true).2.1
      = [.removeItemCall "k", .publishEv "k" none] :=
  (C4_publish_iff_backend_success_amended demoParse demoStrf attW ⟨none, some 1, 1⟩
    true).1 rfl rfl

theorem key_listener (parse : String → Option α) (a : Attachment α)
    (ck : String) (raw : Option String) :
    (listenerApply parse a ck raw).1.key = a.key := by
  by_cases hck : ck ≠ a.key
  · simp [listenerApply, hck]
  · cases raw with
    | none => simp [listenerApply, hck, setStateA]
    | some rv => cases hp : parse rv <;> simp [listenerApply, hck, hp, setStateA]

theorem queue_listener (parse : String → Option α) (a : Attachment α)
    (ck : String) (raw : Option String) :
    (listenerApply parse a ck raw).1.queue = a.queue := by
  by_cases hck : ck ≠ a.key
  · simp [listenerApply, hck]
  · cases raw with
    | none => simp [listenerApply, hck, setStateA]
    | some rv => cases hp : parse rv <;> simp [listenerApply, hck, hp, setStateA]

theorem key_runTask (parse : String → Option α) (strf : α → Option String)
    (a : Attachment α) (t : MutTask α) (bOk : Bool) :
    (runTask parse strf a t bOk).1.key = a.key := by
  obtain ⟨tv, tp, tn⟩ := t
  cases tv with
  | none =>
      cases bOk with
      | true => exact key_listener parse a a.key none
      | false =>
          by_cases hop : a.opCtr = tn <;>
            simp [runTask, taskFail, hop, setStateA]
  | some v =>
      cases hs : strf v with
      | none =>
          by_cases hop : a.opCtr = tn <;>
            simp [runTask, hs, taskFail, hop, setStateA]
      | some s =>
          cases bOk with
          | true =>
              have hl := key_listener parse a a.key (some s)
              simp only [runTask, hs, if_true]
              exact hl
          | false =>
              by_cases hop : a.opCtr = tn <;>
                simp [runTask, hs, taskFail, hop, setStateA]

theorem queue_runTask (parse : String → Option α) (strf : α → Option String)
    (a : Attachment α) (t : MutTask α) (bOk : Bool) :
    (runTask parse strf a t bOk).1.queue = a.queue := by
  obtain ⟨tv, tp, tn⟩ := t
  cases tv with
  | none =>
      cases bOk with
      | true => exact queue_listener parse a a.key none
      | false =>
          by_cases hop : a.opCtr = tn <;>
            simp [runTask, taskFail, hop, setStateA]
  | some v =>
      cases hs : strf v with
      | none =>
          by_cases hop : a.opCtr = tn <;>
            simp [runTask, hs, taskFail, hop, setStateA]
      | some s =>
          cases bOk with
          | true =>
              have hl := queue_listener parse a a.key (some s)
              simp only [runTask, hs, if_true]
              exact hl
          | false =>
              by_cases hop : a.opCtr = tn <;>
                simp [runTask, hs, taskFail, hop, setStateA]

theorem backendOps_runTask (parse : String → Option α) (strf : α → Option String)
    (a : Attachment α) (t : MutTask α) (bOk : Bool) :
    backendOps (runTask parse strf a t bOk).2.1
      = (callBackendOp strf a.key t.value).toList := by
  obtain ⟨tv, tp, tn⟩ := t
  cases tv with
  | none =>
      cases bOk with
      | true =>
          have hl := backendOps_listener parse a a.key none
          simp only [runTask]
          simp [backendOps, List.filter_append, callBackendOp, isBackendOp]
          simpa [backendOps] using hl
      | false =>
          by_cases hop : a.opCtr = tn <;>
            simp [runTask, taskFail, hop, backendOps, isBackendOp, callBackendOp]
  | some v =>
      cases hs : strf v with
      | none =>
          by_cases hop : a.opCtr = tn <;>
            simp [runTask, hs, taskFail, hop, backendOps, isBackendOp, callBackendOp]
      | some s =>
          cases bOk with
          | true =>
              have hl := backendOps_listener parse a a.key (some s)
              simp only [runTask, hs]
              simp [backendOps, List.filter_append, callBackendOp, isBackendOp, hs]
              simpa [backendOps] using hl
          | false =>
              by_cases hop : a.opCtr = tn <;>
                simp [runTask, hs, taskFail, hop, backendOps, isBackendOp,
                  callBackendOp]

theorem backendOps_append (l1 l2 : List Event) :
    backendOps (l1 ++ l2) = backendOps l1 ++ backendOps l2 := by
  simp [backendOps]

theorem backendOps_runChain (parse : String → Option α) (strf : α → Option String)
    (bs : List Bool) (a : Attachment α) (h : bs.length = a.queue.length) :
    backendOps (runChain parse strf a bs).2.1
      = a.queue.filterMap (fun t => callBackendOp strf a.key t.value)
    ∧ (runChain parse strf a bs).2.2.length = bs.length := by
  induction bs generalizing a with
  | nil =>
      have h0 : a.queue.length = 0 := by simpa using h.symm
      have hq : a.queue = [] := List.length_eq_zero.mp h0
      simp [runChain, hq, backendOps]
  | cons b bs ih =>
      cases hq : a.queue with
      | nil => rw [hq] at h; simp at h
      | cons t rest =>
          rw [hq] at h
          simp only [List.length_cons, Nat.succ.injEq] at h
          have hkey : (runTask parse strf { a with queue := rest } t b).1.key
              = a.key := key_runTask parse strf { a with queue := rest } t b
          have hqq : (runTask parse strf { a with queue := rest } t b).1.queue
              = rest := queue_runTask parse strf { a with queue := rest } t b
          have hlen2 : bs.length
              = (runTask parse strf { a with queue := rest } t b).1.queue.length := by
            rw [hqq]; exact h
          have ihres := ih (runTask parse strf { a with queue := rest } t b).1 hlen2
          rw [hkey, hqq] at ihres
          have hbt : backendOps (runTask parse strf { a with queue := rest } t b).2.1
              = (callBackendOp strf a.key t.value).toList :=
            backendOps_runTask parse strf { a with queue := rest } t b
          simp only [runChain, hq]
          refine ⟨?_, ?_⟩
          · rw [backendOps_append, hbt, ihres.1, List.filterMap_cons]
            cases hcb : callBackendOp strf a.key t.value <;> simp [hcb]
          · simp [ihres.2]

theorem key_issueAll (a : Attachment α) (vs : List (Option α)) :
    (issueAll a vs).key = a.key := by
  induction vs generalizing a with
  | nil => rfl
  | cons v vs ih => simpa [issueAll, setValueSync] using ih (setValueSync a v)

theorem queue_issueAll (a : Attachment α) (vs : List (Option α)) :
    (issueAll a vs).queue.map (fun t => t.value)
      = a.queue.map (fun t => t.value) ++ vs := by
  induction vs generalizing a with
  | nil => simp [issueAll]
  | cons v vs ih =>
      have := ih (setValueSync a v)
      simp only [issueAll] at *
      rw [this]
      simp [setValueSync]

/-- C2: `setValue` calls issued on one attachment without awaiting pile their
tasks up in the promise chain; running the chain settles every task exactly
once (later tasks run even when earlier ones failed, because the chain is
built with `.then(task, task)`) and the backend receives the write/erase
calls strictly in call order, whatever the pattern of backend outcomes; a
call whose serialization faults performs no backend call and is skipped in
the backend order without disturbing it. -/
theorem C2_backend_in_call_order (parse : String → Option α)
    (strf : α → Option String) (a : Attachment α) (vs : List (Option α))
    (bs : List Bool) (hq : a.queue = []) (hlen : bs.length = vs.length) :
    backendOps (runChain parse strf (issueAll a vs) bs).2.1
      = vs.filterMap (callBackendOp strf a.key)
    ∧ (runChain parse strf (issueAll a vs) bs).2.2.length = vs.length := by
  have hkey := key_issueAll a vs
  have hqm := queue_issueAll a vs
  rw [hq] at hqm
  simp only [List.map_nil, List.nil_append] at hqm
  have hlen2 : bs.length = (issueAll a vs).queue.length := by
    have : (issueAll a vs).queue.length
        = ((issueAll a vs).queue.map (fun t => t.value)).length := by simp
    rw [this, hqm]
    exact hlen
  obtain ⟨h1, h2⟩ := backendOps_runChain parse strf bs (issueAll a vs) hlen2
  constructor
  · rw [h1, hkey]
    have hcomp : (issueAll a vs).queue.filterMap
          (fun t => callBackendOp strf a.key t.value)
        = ((issueAll a vs).queue.map (fun t => t.value)).filterMap
            (callBackendOp strf a.key) := by
      rw [List.filterMap_map]
      rfl
    rw [hcomp, hqm]
  · rw [h2, hlen]

/-- Witness for C2: two calls (`setValue 7`, then `setValue null`), first
backend write failing, still reach the backend in call order and both tasks
settle. -/
theorem C2_backend_in_call_order_wit :
    att0.queue = []
    ∧ backendOps (runChain demoParse demoStrf (issueAll att0 [some 7, none])
        [false, true]).2.1
      = [.setItemCall "k" "7", .removeItemCall "k"] := by
  refine ⟨rfl, ?_⟩
  have h := (C2_backend_in_call_order demoParse demoStrf att0 [some 7, none]
    [false, true] rfl (by decide)).1
  rw [h]
  decide

theorem isLoading_listener_self (parse : String → Option α) (a : Attachment α)
    (raw : Option String) :
    (listenerApply parse a a.key raw).1.state.isLoading = false := by
  cases raw with
  | none => simp [listenerApply, setStateA]
  | some rv => cases hp : parse rv <;> simp [listenerApply, hp, setStateA]

theorem isLoading_applyOp (parse : String → Option α) (strf : α → Option String)
    (a : Attachment α) (o : HookOp α) :
    (applyOp parse strf a o).1.state.isLoading = false
    ∨ (applyOp parse strf a o).1.state.isLoading = a.state.isLoading := by
  cases o with
  | load r c =>
      cases r with
      | fail => left; rfl
      | ok raw =>
          cases raw with
          | none => left; rfl
          | some rv =>
              cases hp : parse rv with
              | some v => left; simp [applyOp, initialLoad, hp, setStateA]
              | none => left; simp [applyOp, initialLoad, hp, setStateA]
  | broadcast ck raw =>
      by_cases hck : ck ≠ a.key
      · right; simp [applyOp, listenerApply, hck]
      · left
        have hck2 : ck = a.key := not_not.mp hck
        subst hck2
        exact isLoading_listener_self parse a raw
  | mutate v => left; rfl
  | settleNext bOk =>
      simp only [applyOp]
      cases hq : a.queue with
      | nil => right; rfl
      | cons t rest =>
          obtain ⟨tv, tp, tn⟩ := t
          cases tv with
          | none =>
              cases bOk with
              | true =>
                  left
                  exact isLoading_listener_self parse { a with queue := rest } none
              | false =>
                  by_cases hop : a.opCtr = tn
                  · left; simp [runTask, taskFail, hop, setStateA]
                  · right; simp [runTask, taskFail, hop]
          | some v =>
              cases hs : strf v with
              | none =>
                  by_cases hop : a.opCtr = tn
                  · left; simp [runTask, hs, taskFail, hop, setStateA]
                  · right; simp [runTask, hs, taskFail, hop]
              | some str2 =>
                  cases bOk with
                  | true =>
                      left
                      have hl := isLoading_listener_self parse
                        { a with queue := rest } (some str2)
                      simp only [runTask, hs, if_true]
                      exact hl
                  | false =>
                      by_cases hop : a.opCtr = tn
                      · left; simp [runTask, hs, taskFail, hop, setStateA]
                      · right; simp [runTask, hs, taskFail, hop]

theorem isLoading_applyOps_false (parse : String → Option α)
    (strf : α → Option String) (a : Attachment α) (ops : List (HookOp α))
    (h : a.state.isLoading = false) :
    (applyOps parse strf a ops).state.isLoading = false := by
  induction ops generalizing a with
  | nil => exact h
  | cons o os ih =>
      apply ih
      rcases isLoading_applyOp parse strf a o with h1 | h1
      · exact h1
      · rw [h1]; exact h

/-- C8: `isLoading` starts out `true` on a fresh attachment and latches to
`false`: every handler invocation either produces a state with
`isLoading = false` or leaves the flag unchanged, so once any handler has
settled the first load (or an earlier mutate has run), no sequence of
handler invocations ever turns it back on. -/
theorem C8_isLoading_latch (parse : String → Option α) (strf : α → Option String) :
    (∀ k : String, (initialAttachment α k).state.isLoading = true)
    ∧ (∀ (a : Attachment α) (o : HookOp α),
        (applyOp parse strf a o).1.state.isLoading = false
        ∨ (applyOp parse strf a o).1.state.isLoading = a.state.isLoading)
    ∧ (∀ (a : Attachment α) (ops : List (HookOp α)), a.state.isLoading = false →
        (applyOps parse strf a ops).state.isLoading = false) :=
  ⟨fun _ => rfl, isLoading_applyOp parse strf,
    fun a ops h => isLoading_applyOps_false parse strf a ops h⟩

/-- Witness for C8: a settled attachment stays non-loading across a mutate,
a failed task settlement and a broadcast. -/
theorem C8_isLoading_latch_wit :
    attW.state.isLoading = false
    ∧ (applyOps demoParse demoStrf attW
        [.mutate (some 3), .settleNext false, .broadcast "k" none]).state.isLoading
      = false :=
  ⟨rfl, (C8_isLoading_latch demoParse demoStrf).2.2 attW
    [.mutate (some 3), .settleNext false, .broadcast "k" none] rfl⟩

/-- C7 counterexample: the claim says the corrupt-entry cleanup fault is
never surfaced to the logger or the `onError` sink, but in the legacy
`useStorageState` hook (`src/useStorageState.ts`, cleanup
`setStorageItemAsync(key, null).catch(handleError)`) a failing cleanup for
key `"k"` after loading the unparsable raw value `"bad"` is reported. -/
theorem C7_cleanup_fault_surfaced_cex :
    Event.reportEv (writeError "k")
      ∈ (initialLoadLegacy demoParse "k" (.ok (some "bad")) false).2 := by
  decide

/-- C7 amended: in the engine (`useKeyValueStorage`) the best-effort cleanup
fault is swallowed — the load outcome is independent of the cleanup result
and the only report a corrupt entry produces is the parse error — and every
other fault path reports its fault (read fault at load, any task fault, a
parse fault on a broadcast); in the legacy `useStorageState` hook, however,
the cleanup fault is reported to the logger and `onError` sink (only the
attachment state is left untouched). -/
theorem C7_cleanup_swallowed_amended (parse : String → Option α)
    (strf : α → Option String) (a : Attachment α) (k : String) :
    (∀ (r : ReadRes) (c : Bool), initialLoad parse a r c = initialLoad parse a r true)
    ∧ (∀ raw, parse raw = none → ∀ e,
        Event.reportEv e ∈ (initialLoad parse a (.ok (some raw)) false).2 →
        e = parseError a.key)
    ∧ Event.reportEv (readError a.key) ∈ (initialLoad parse a .fail true).2
    ∧ (∀ (t : MutTask α) (bOk : Bool) (err : StorageError),
        (runTask parse strf a t bOk).2.2 = .error err →
        Event.reportEv err ∈ (runTask parse strf a t bOk).2.1)
    ∧ (∀ rv, parse rv = none →
        Event.reportEv (parseError a.key)
          ∈ (listenerApply parse a a.key (some rv)).2)
    ∧ (∀ raw, parse raw = none →
        Event.reportEv (writeError k)
          ∈ (initialLoadLegacy parse k (.ok (some raw)) false).2) := by
  refine ⟨?_, ?_, ?_, ?_, ?_, ?_⟩
  · intro r c
    cases r with
    | fail => rfl
    | ok raw =>
        cases raw with
        | none => rfl
        | some rv =>
            cases hp : parse rv with
            | some v => simp [initialLoad, hp]
            | none => cases c <;> simp [initialLoad, hp, bestEffortRemove]
  · intro raw hp e hmem
    simp [initialLoad, hp, bestEffortRemove] at hmem
    exact hmem
  · simp [initialLoad, toStorageError]
  · intro t bOk err hres
    exact (runTask_error_spec parse strf a t bOk err hres).1
  · intro rv hp
    simp [listenerApply, hp]
  · intro raw hp
    simp [initialLoadLegacy, hp, bestEffortRemove]

/-- Witness for C7 (amended): the legacy hook reports the cleanup fault on a
concrete corrupt entry. -/
theorem C7_cleanup_swallowed_amended_wit :
    demoParse "bad" = none
    ∧ Event.reportEv (writeError "k")
        ∈ (initialLoadLegacy demoParse "k" (.ok (some "bad")) false).2 :=
  ⟨by decide, (C7_cleanup_swallowed_amended demoParse demoStrf att0 "k").2.2.2.2.2
    "bad" (by decide)⟩

end EngineProofs

end ExpoStorage
